import Mathlib

/-!
Shallow embedding of the archive engine of resty-fs (src/index.js, second
revision: getFiles / tar / untar / zip / unzip and the compress / decompress
request handlers), and the theorems settling the specification claims.

Paths are modelled as the segment lists of absolute paths ("/a/b" is
["a", "b"]); an archive entry name additionally records whether the name is
absolute (a JS path string starting with "/").  File contents are lists of
bytes.  The filesystem is a newest-first association list from paths to
nodes.  The external codecs (tar-stream, zip-stream, unzip-stream) are
modelled at the entry level: an archive file on disk stores the sequence of
entries that was appended to its stream together with a flag recording
whether the stream was ever finalized (tar-stream: pack.finalize() called;
zip-stream: finish() called).
-/

namespace RestyFs

/-- POSIX metadata the engine carries per entry: mode, uid, gid, mtime. -/
structure Meta where
  mode : Nat
  uid : Nat
  gid : Nat
  mtime : Nat
deriving DecidableEq

/-- A JS path value: `isAbs` when the string starts with "/", plus its
    "/"-separated segments. -/
structure JPath where
  isAbs : Bool
  segs : List String
deriving DecidableEq

/-- One step of Node path normalization: "." and empty segments vanish,
    ".." pops the last segment (staying at the root when already there). -/
def normStep (acc : List String) (s : String) : List String :=
  if s = "." ∨ s = "" then acc
  else if s = ".." then acc.dropLast
  else acc ++ [s]

/-- Node path normalization of an absolute segment list. -/
def normSegs (l : List String) : List String := l.foldl normStep []

/-- path.resolve(base, p) for an absolute, already-normalized base:
    an absolute p replaces the base, a relative p is appended, and the
    result is normalized. -/
def resolve (base : List String) (p : JPath) : List String :=
  if p.isAbs then normSegs p.segs else normSegs (base ++ p.segs)

/-- path.resolve(base, "./" ++ p) as the handlers build it: the "./"
    makes p relative to base even if it begins with "/". -/
def resolveRel (base p : List String) : List String := normSegs (base ++ p)

/-- An archive entry as handed to pack.entry / archive.entry and as yielded
    by the extract side: header fields (name, mode, mtime, uid, gid) plus,
    for files, the content bytes. -/
inductive Entry where
  | file (name : JPath) (content : List Nat) (meta : Meta)
  | dir (name : JPath) (meta : Meta)
deriving DecidableEq

def Entry.name : Entry → JPath
  | .file n _ _ => n
  | .dir n _ => n

def Entry.meta : Entry → Meta
  | .file _ _ m => m
  | .dir _ m => m

/-- A filesystem node.  An archive node abstracts the bytes an external
    codec wrote into a file: the entries appended to its stream and whether
    the stream was finalized (an unfinalized tar stream has no terminating
    blocks, so a reader that consumes it never sees end-of-archive). -/
inductive Node where
  | file (content : List Nat) (meta : Meta)
  | dir (meta : Meta)
  | archive (entries : List Entry) (finalized : Bool)
deriving DecidableEq

/-- The filesystem: newest-first association list from paths to nodes. -/
abbrev FS := List (List String × Node)

def FS.find : FS → List String → Option Node
  | [], _ => none
  | (q, n) :: rest, p => if p = q then some n else FS.find rest p

def FS.set (fs : FS) (p : List String) (n : Node) : FS := (p, n) :: fs

/-- Directories fs.mkdir creates implicitly get mode 0o777 (umask and
    creation times are abstracted away). -/
def freshDirMeta : Meta := ⟨511, 0, 0, 0⟩

/-- Create one directory if nothing exists at p (with { recursive: true }
    fs.mkdir leaves an existing node alone; a conflicting file at an
    ancestor would make Node throw, a case outside the claims' inputs). -/
def mkdirOne (fs : FS) (p : List String) : FS :=
  match FS.find fs p with
  | some _ => fs
  | none => FS.set fs p (Node.dir freshDirMeta)

/-- All prefixes of a path, shortest first. -/
def prefixesOf (p : List String) : List (List String) :=
  (List.range (p.length + 1)).map fun i => p.take i

/-- fs.mkdir(p, { recursive: true }): create every missing ancestor, then
    p itself. -/
def mkdirRec (fs : FS) (p : List String) : FS :=
  (prefixesOf p).foldl mkdirOne fs

/-- The settled effect of chmod(target, mode), chown(target, uid, gid) and
    utimes(target, now, mtime): the node's metadata becomes the header's
    (access time is not tracked). -/
def setMeta (fs : FS) (p : List String) (m : Meta) : FS :=
  match FS.find fs p with
  | some (Node.file c _) => FS.set fs p (Node.file c m)
  | some (Node.dir _) => FS.set fs p (Node.dir m)
  | _ => fs

/-- State-level effect of one iteration of untar's for-await loop, once all
    the operations it starts have settled: resolve the target against the
    extraction directory, recursively mkdir the parent, write the file
    content (or mkdir the target for a directory entry), then restore the
    header metadata. -/
def processEntry (t : List String) (fs : FS) (e : Entry) : FS :=
  let target := resolve t e.name
  let fs1 := mkdirRec fs target.dropLast
  match e with
  | Entry.file _ c m => setMeta (FS.set fs1 target (Node.file c m)) target m
  | Entry.dir _ m => setMeta (mkdirRec fs1 target) target m

/-- How a call of untar can end.  The second revision performs no existence
    check: createReadStream on a missing path emits an error event on the
    source stream, which pipe does not forward and nothing listens to, so
    the call neither throws nor settles (streamErrorUnpropagated).
    thrownNotFound is what the spec demands, and what the first revision's
    await fs.stat(f) produced; the embedded untar never returns it.  An
    archive whose stream was never finalized yields all its entries and the
    for-await loop then waits forever for the next header (hangs).  Bytes
    that are not a tar stream make the extractor error, rejecting the
    iteration (codecError). -/
inductive Outcome where
  | completed (fs : FS)
  | hangs (fs : FS)
  | streamErrorUnpropagated
  | codecError
  | thrownNotFound
deriving DecidableEq

def Outcome.state : Outcome → FS
  | .completed fs => fs
  | .hangs fs => fs
  | _ => []

/-- untar (src/index.js lines 386-404, second revision). -/
def untarRun (fs : FS) (f t : List String) : Outcome :=
  match FS.find fs f with
  | none => Outcome.streamErrorUnpropagated
  | some (Node.archive es fin) =>
      let st := es.foldl (processEntry t) fs
      if fin then Outcome.completed st else Outcome.hangs st
  | some _ => Outcome.codecError

/-- fs.readdir(f, { withFileTypes: true }): the names of the immediate
    children of f.  No recursive option is passed. -/
def readdir (fs : FS) (f : List String) : List String :=
  List.filterMap
    (fun qn =>
      if f.isPrefixOf qn.1 && qn.1.length == f.length + 1 then qn.1.getLast?
      else none)
    fs

/-- getFiles (lines 364-378): stat the root; for a directory, list the
    immediate children and stat each at path.resolve(f, child.name);
    otherwise return the single stated root.  A missing root (fs.stat
    throwing ENOENT) is none. -/
def getFiles (fs : FS) (f : List String) : Option (List (List String × Node)) :=
  match FS.find fs f with
  | none => none
  | some (Node.dir _) =>
      (readdir fs f).mapM fun name =>
        (FS.find fs (f ++ [name])).map fun s => (f ++ [name], s)
  | some n => some [(f, n)]

/-- name = path.resolve(f, p).replace(cwd + "/", ""): p is already
    absolute, so the resolve returns p itself; the replace strips a leading
    cwd, yielding a cwd-relative name, and leaves a path outside cwd as an
    absolute name. -/
def entryName (cwd p : List String) : JPath :=
  if cwd.isPrefixOf p then ⟨false, p.drop cwd.length⟩ else ⟨true, p⟩

/-- The pack.entry / archive.entry argument built from one enumerated node
    (archive nodes are opaque in this model and never re-archived). -/
def mkEntry (cwd : List String) (p : List String) (n : Node) : Option Entry :=
  match n with
  | Node.file c m => some (Entry.file (entryName cwd p) c m)
  | Node.dir m => some (Entry.dir (entryName cwd p) m)
  | Node.archive _ _ => none

/-- n = root ++ ".tar.gz" / root ++ ".zip": the suffix lands on the last
    segment of the root path. -/
def appendExt (p : List String) (ext : String) : List String :=
  p.dropLast ++ [(p.getLast?.getD "") ++ ext]

/-- tar (lines 468-507): enumerate with getFiles, append every entry to the
    pack stream, pipe the pack into the sink at root ++ ".tar.gz" and
    return that name.  pack.finalize() is never called, so the produced
    archive node is not finalized. -/
def tarRun (fs : FS) (cwd f : List String) : Option (List String × FS) :=
  (getFiles fs f).bind fun files =>
    (files.mapM fun pn => mkEntry cwd pn.1 pn.2).map fun es =>
      let n := appendExt f ".tar.gz"
      (n, FS.set fs n (Node.archive es false))

/-- zip (lines 422-461): the same shape, but archive.finish() is called, so
    the zip stream is finalized (the file sink is still not awaited before
    the name is returned). -/
def zipRun (fs : FS) (cwd f : List String) : Option (List String × FS) :=
  (getFiles fs f).bind fun files =>
    (files.mapM fun pn => mkEntry cwd pn.1 pn.2).map fun es =>
      let n := appendExt f ".zip"
      (n, FS.set fs n (Node.archive es true))

/-- Files written by unzip-stream get their content but none of the
    archived POSIX metadata: the library calls neither chmod nor chown nor
    utimes. -/
def freshFileMeta : Meta := ⟨420, 0, 0, 0⟩

/-- One entry written by unzipper.Extract({ path: t }). -/
def unzipEntry (t : List String) (fs : FS) (e : Entry) : FS :=
  let target := resolve t e.name
  let fs1 := mkdirRec fs target.dropLast
  match e with
  | Entry.file _ c _ => FS.set fs1 target (Node.file c freshFileMeta)
  | Entry.dir _ _ => mkdirRec fs1 target

/-- What one call of unzip produces: `returned` and `stateAtReturn`
    describe the moment its promise resolves, `eventual` the detached
    pipeline that keeps running afterwards. -/
structure ZipExtractReturn where
  returned : Bool
  stateAtReturn : FS
  eventual : Outcome
deriving DecidableEq

/-- unzip (lines 412-415): builds the extractor, starts
    createReadStream(f).pipe(extract) and resolves immediately; the
    extraction runs detached after the call has returned, and any stream
    error (for instance ENOENT for a missing archive) fires after the
    return with no handler attached. -/
def unzipRun (fs : FS) (f t : List String) : ZipExtractReturn :=
  ⟨true, fs,
    match FS.find fs f with
    | some (Node.archive es _) => Outcome.completed (List.foldl (unzipEntry t) fs es)
    | _ => Outcome.streamErrorUnpropagated⟩

/-- Responses of the request handlers.  noResponse: the handler awaits an
    operation that never settles (or whose failure is emitted where nothing
    listens), so no HTTP response is ever produced. -/
inductive Resp where
  | noContent (loc : Option (List String))
  | badRequest
  | notFound
  | serverError
  | noResponse
deriving DecidableEq

/-- compressHandler (lines 524-543): resolve the target under cwd, then
    dispatch on the format; any format other than "tar.gz" and "zip"
    answers 400 with no filesystem effect.  A missing root surfaces as
    ENOENT, which onError maps to 404. -/
def compressHandler (st : FS) (cwd dirSegs targetSegs : List String)
    (format : String) : Resp × FS :=
  let target := resolveRel (resolveRel cwd dirSegs) targetSegs
  if format = "tar.gz" then
    match tarRun st cwd target with
    | some (n, st1) => (Resp.noContent (some n), st1)
    | none => (Resp.notFound, st)
  else if format = "zip" then
    match zipRun st cwd target with
    | some (n, st1) => (Resp.noContent (some n), st1)
    | none => (Resp.notFound, st)
  else (Resp.badRequest, st)

/-- decompressHandler (lines 554-568): the tar.gz branch awaits untar and
    its outcome decides the response; the zip branch awaits unzip, which
    resolves as soon as the pipe has started, and then answers 204
    immediately, with the extraction still pending. -/
def decompressHandler (st : FS) (cwd dirSegs fileSegs targetSegs : List String)
    (format : String) : Resp × FS :=
  let file := resolveRel (resolveRel cwd dirSegs) fileSegs
  let target := resolveRel cwd targetSegs
  if format = "tar.gz" then
    match untarRun st file target with
    | Outcome.completed st1 => (Resp.noContent none, st1)
    | Outcome.hangs st1 => (Resp.noResponse, st1)
    | Outcome.streamErrorUnpropagated => (Resp.noResponse, st)
    | Outcome.codecError => (Resp.serverError, st)
    | Outcome.thrownNotFound => (Resp.notFound, st)
  else if format = "zip" then
    (Resp.noContent none, (unzipRun st file target).stateAtReturn)
  else (Resp.badRequest, st)

/-- Coarse statement-level actions of the writer functions. -/
inductive Act where
  | statRoot
  | readdirRoot
  | appendEntries
  | packFinalize
  | zipFinish
  | openSink
  | pipeToSink
  | awaitSinkClose
  | retPath
deriving DecidableEq

/-- tar's statements in source order: getFiles (stat + readdir), append all
    entries to the pack, open the sink, pack.pipe(write), return n.  There
    is no pack.finalize() and nothing ever awaits the sink closing. -/
def tarActs : List Act :=
  [Act.statRoot, Act.readdirRoot, Act.appendEntries, Act.openSink,
   Act.pipeToSink, Act.retPath]

/-- zip's statements in source order: entries, archive.finish(), open the
    sink, archive.pipe(write), return n.  The sink is never awaited. -/
def zipActs : List Act :=
  [Act.statRoot, Act.readdirRoot, Act.appendEntries, Act.zipFinish,
   Act.openSink, Act.pipeToSink, Act.retPath]

/-- Stream pipeline stages. -/
inductive Stage where
  | fileSource
  | gunzipStage
  | tarExtract
  | tarPack
  | gzipStage
  | fileSink
deriving DecidableEq

/-- The pipeline untar builds: createReadStream(f).pipe(extract). -/
def untarStages : List Stage := [Stage.fileSource, Stage.tarExtract]

/-- The pipeline tar builds: pack.pipe(createWriteStream(n)). -/
def tarStages : List Stage := [Stage.tarPack, Stage.fileSink]

/-- Filesystem operations untar issues while handling one entry. -/
inductive Op where
  | mkdirP (p : List String)
  | startWrite (p : List String)
  | endWrite (p : List String)
  | mkdirTarget (p : List String)
  | chmodOp (p : List String) (mode : Nat)
  | chownOp (p : List String) (uid gid : Nat)
  | utimesOp (p : List String) (mtime : Nat)
deriving DecidableEq

/-- The operations untar awaits for one entry, in program order: recursive
    mkdir of the parent, then for a file entry only the START of the piped
    content write (entry.pipe(createWriteStream(target)) is not awaited),
    then chmod, chown and utimes.  The completion of the content write
    (endWrite) is not among the awaited operations. -/
def entryAwaitedOps (t : List String) (e : Entry) : List Op :=
  let target := resolve t e.name
  Op.mkdirP target.dropLast ::
    (match e with
     | Entry.file _ _ _ => [Op.startWrite target]
     | Entry.dir _ _ => [Op.mkdirTarget target]) ++
    [Op.chmodOp target e.meta.mode,
     Op.chownOp target e.meta.uid e.meta.gid,
     Op.utimesOp target e.meta.mtime]

def insertAt (l : List Op) (i : Nat) (o : Op) : List Op :=
  l.take i ++ o :: l.drop i

def firstIdx : List Op → Op → Nat
  | [], _ => 0
  | x :: xs, o => if x = o then 0 else firstIdx xs o + 1

/-- The piped content write completes at some point after it starts;
    inserting the completion event at each later position gives the
    possible schedules of one file entry's operations. -/
def schedules (t : List String) (e : Entry) : List (List Op) :=
  let ops := entryAwaitedOps t e
  let target := resolve t e.name
  let s := firstIdx ops (Op.startWrite target)
  List.filterMap
    (fun i => if s < i then some (insertAt ops i (Op.endWrite target)) else none)
    (List.range (ops.length + 1))

/-- Is there a file with content c anywhere under d?  The association list
    is scanned whole (shadowed bindings included), so a false answer rules
    out every path. -/
def FS.existsFileWithContent (fs : FS) (d : List String) (c : List Nat) : Bool :=
  List.any fs fun qn =>
    d.isPrefixOf qn.1 &&
      match qn.2 with
      | Node.file c2 _ => c2 == c
      | _ => false

/-! Concrete fixtures for the counterexamples. -/

def mRoot : Meta := ⟨493, 0, 0, 0⟩
def mData : Meta := ⟨493, 10, 20, 100⟩
def mSub : Meta := ⟨493, 10, 20, 200⟩
def mA : Meta := ⟨420, 10, 20, 300⟩

/-- A tree: /work/data/sub/a.txt inside cwd /work. -/
def fs0 : FS :=
  [([], Node.dir mRoot),
   (["work"], Node.dir mRoot),
   (["work", "data"], Node.dir mData),
   (["work", "data", "sub"], Node.dir mSub),
   (["work", "data", "sub", "a.txt"], Node.file [1, 2, 3] mA)]

def cwd0 : List String := ["work"]
def dataRoot : List String := ["work", "data"]

/-- The filesystem after tar has run on /work/data: the archive at
    /work/data.tar.gz holds a single directory entry "data/sub" (the nested
    file was never enumerated) and was never finalized. -/
def archFs : FS :=
  FS.set fs0 ["work", "data.tar.gz"]
    (Node.archive [Entry.dir ⟨false, ["data", "sub"]⟩ mSub] false)

/-- The state untar reaches extracting that archive into /out. -/
def extractedFs : FS :=
  (untarRun archFs ["work", "data.tar.gz"] ["out"]).state

def mEvil : Meta := ⟨420, 0, 0, 50⟩

/-- A malicious archive entry named "../evil.txt". -/
def evilEntry : Entry := Entry.file ⟨false, ["..", "evil.txt"]⟩ [9] mEvil

def outDir : List String := ["tmp", "out"]

def tinyFs : FS := [([], Node.dir mRoot)]

def plainFileEntry : Entry := Entry.file ⟨false, ["a.txt"]⟩ [5] mA

/-! Helper lemmas about the association-list filesystem. -/

theorem FS.find_set (fs : FS) (p q : List String) (n : Node) :
    FS.find (FS.set fs p n) q = if q = p then some n else FS.find fs q := rfl

theorem mkdirOne_pres (fs : FS) (r q : List String) (v : Node)
    (h : FS.find fs q = some v) : FS.find (mkdirOne fs r) q = some v := by
  cases hfr : FS.find fs r with
  | some n => simp [mkdirOne, hfr, h]
  | none =>
      by_cases hq : q = r
      · subst hq; rw [h] at hfr; cases hfr
      · simp [mkdirOne, hfr, FS.set, FS.find, hq, h]

theorem mkdirOne_self (fs : FS) (r : List String) :
    FS.find (mkdirOne fs r) r ≠ none := by
  cases hfr : FS.find fs r with
  | some n => simp [mkdirOne, hfr]
  | none => simp [mkdirOne, hfr, FS.set, FS.find]

theorem foldl_mkdirOne_pres (l : List (List String)) (fs : FS)
    (q : List String) (v : Node) (h : FS.find fs q = some v) :
    FS.find (l.foldl mkdirOne fs) q = some v := by
  induction l generalizing fs with
  | nil => exact h
  | cons r tl ih => exact ih (mkdirOne fs r) (mkdirOne_pres fs r q v h)

theorem foldl_mkdirOne_mem (l : List (List String)) (fs : FS)
    (q : List String) (h : q ∈ l) :
    FS.find (l.foldl mkdirOne fs) q ≠ none := by
  induction l generalizing fs with
  | nil => cases h
  | cons r tl ih =>
      rcases List.mem_cons.mp h with hq | hq
      · subst hq
        cases hfr : FS.find (mkdirOne fs q) q with
        | none => exact absurd hfr (mkdirOne_self fs q)
        | some v =>
            rw [List.foldl_cons, foldl_mkdirOne_pres tl (mkdirOne fs q) q v hfr]
            simp
      · exact ih (mkdirOne fs r) hq

theorem mem_prefixesOf (q p : List String) (h : q <+: p) : q ∈ prefixesOf p := by
  have hlen : q.length ≤ p.length := h.length_le
  have htake : q = p.take q.length := List.prefix_iff_eq_take.mp h
  unfold prefixesOf
  refine List.mem_map.mpr ⟨q.length, List.mem_range.mpr ?_, htake.symm⟩
  omega

/-- Every prefix of p exists after fs.mkdir(p, { recursive: true }). -/
theorem mkdirRec_find (fs : FS) (p q : List String) (h : q <+: p) :
    FS.find (mkdirRec fs p) q ≠ none :=
  foldl_mkdirOne_mem (prefixesOf p) fs q (mem_prefixesOf q p h)

/-! The claim theorems. -/

/-- Claim C1 [code_bug].  Round-trip identity fails.  In fs0 the tree at
    /work/data contains the nested file /work/data/sub/a.txt with content
    [1,2,3].  tar on /work/data produces an archive holding only the
    immediate child directory entry "data/sub" (getFiles never descends)
    and never finalizes it; extracting that archive into /out therefore
    hangs after materializing its entries, and the state reached holds no
    file with content [1,2,3] anywhere under /out: the archived tree is not
    reproduced byte-for-byte. -/
theorem roundtrip_drops_nested_file :
    tarRun fs0 cwd0 dataRoot = some (["work", "data.tar.gz"], archFs)
    ∧ FS.find fs0 ["work", "data", "sub", "a.txt"]
      = some (Node.file [1, 2, 3] mA)
    ∧ untarRun archFs ["work", "data.tar.gz"] ["out"] = Outcome.hangs extractedFs
    ∧ FS.existsFileWithContent extractedFs ["out"] [1, 2, 3] = false :=
  ⟨rfl, rfl, rfl, rfl⟩

/-- Claim C2 [code_bug].  Extraction containment fails: untar resolves
    entry names with path.resolve against the target directory and never
    checks containment, so the entry named "../evil.txt", extracted into
    /tmp/out, resolves to /tmp/evil.txt - outside the target - and its
    content is written there. -/
theorem extraction_escapes_target_dir :
    resolve outDir (Entry.name evilEntry) = ["tmp", "evil.txt"]
    ∧ outDir.isPrefixOf ["tmp", "evil.txt"] = false
    ∧ FS.find (processEntry outDir [([], Node.dir mRoot)] evilEntry)
        ["tmp", "evil.txt"] = some (Node.file [9] mEvil) :=
  ⟨rfl, rfl, rfl⟩

/-- Claim C3 [code_bug].  The enumerator is not recursive: on the directory
    /work/data, whose descendant file sub/a.txt exists in fs0, getFiles
    returns only the immediate child entry for sub, not the full recursive
    descendant set.  (On a single file it does return the one-element list
    containing the root, as the claim states.) -/
theorem getFiles_not_recursive :
    getFiles fs0 dataRoot = some [(["work", "data", "sub"], Node.dir mSub)]
    ∧ FS.find fs0 ["work", "data", "sub", "a.txt"]
      = some (Node.file [1, 2, 3] mA)
    ∧ getFiles fs0 ["work", "data", "sub", "a.txt"]
      = some [(["work", "data", "sub", "a.txt"], Node.file [1, 2, 3] mA)] :=
  ⟨rfl, rfl, rfl⟩

/-- Claim C4 [code_bug].  tar does return root ++ ".tar.gz", but at that
    moment the path does not name a complete, closed archive: the statement
    trace contains no pack.finalize() and never awaits the sink, and the
    archive node produced at the returned path is unfinalized (zip calls
    finish() but likewise never awaits its sink before returning). -/
theorem createArchive_path_but_never_finalized :
    tarRun fs0 cwd0 dataRoot = some (appendExt dataRoot ".tar.gz", archFs)
    ∧ FS.find archFs ["work", "data.tar.gz"]
      = some (Node.archive [Entry.dir ⟨false, ["data", "sub"]⟩ mSub] false)
    ∧ Act.packFinalize ∉ tarActs
    ∧ Act.awaitSinkClose ∉ tarActs
    ∧ Act.awaitSinkClose ∉ zipActs :=
  ⟨rfl, rfl, by decide, by decide, by decide⟩

/-- Claim C5 [code_bug].  There is no gzip stage on either side: untar
    pipes the raw file stream straight into the tar extractor and tar pipes
    the pack straight into the file sink, despite the ".tar.gz" naming (the
    zlib imports createGunzip and createGzip are never used). -/
theorem no_gzip_stage_in_pipelines :
    Stage.gunzipStage ∉ untarStages ∧ Stage.gzipStage ∉ tarStages :=
  ⟨by decide, by decide⟩

/-- Claim C6 [code_bug].  For a file entry untar starts the content write
    without awaiting it and immediately issues chmod/chown/utimes: the
    write's completion is not among the awaited operations, and there is a
    legal schedule in which chmod runs before the content write completes,
    so metadata restoration is not ordered after the content write. -/
theorem metadata_not_after_content_write :
    Op.endWrite ["out", "a.txt"] ∉ entryAwaitedOps ["out"] plainFileEntry
    ∧ Op.chmodOp ["out", "a.txt"] 420 ∈ entryAwaitedOps ["out"] plainFileEntry
    ∧ (schedules ["out"] plainFileEntry).any
        (fun s => decide (firstIdx s (Op.chmodOp ["out", "a.txt"] 420)
          < firstIdx s (Op.endWrite ["out", "a.txt"]))) = true :=
  ⟨by decide, by decide, by decide⟩

/-- Claim C7 [code_bug].  On a missing archive path, extraction does not
    fail with NotFound: untar (which dropped the first revision's
    await fs.stat existence check) ends in an unpropagated stream error, so
    the tar.gz decompress request never gets a response, and unzip resolves
    successfully before its detached stream errors. -/
theorem missing_archive_not_notfound :
    untarRun tinyFs ["nope.tar.gz"] ["out"] = Outcome.streamErrorUnpropagated
    ∧ untarRun tinyFs ["nope.tar.gz"] ["out"] ≠ Outcome.thrownNotFound
    ∧ decompressHandler tinyFs [] [] ["nope.tar.gz"] ["out"] "tar.gz"
      = (Resp.noResponse, tinyFs)
    ∧ (unzipRun tinyFs ["nope.zip"] ["out"]).returned = true
    ∧ (unzipRun tinyFs ["nope.zip"] ["out"]).eventual
      = Outcome.streamErrorUnpropagated :=
  ⟨rfl, by decide, rfl, rfl, rfl⟩

/-- Claim C8 [confirmed].  Any format other than "tar.gz" and "zip" is
    rejected by compressHandler with a 400 response - the HTTP image of
    UnsupportedFormat - and the filesystem is returned unchanged: no file
    is created. -/
theorem unsupported_format_rejected_no_effect
    (st : FS) (cwd dirSegs targetSegs : List String) (format : String)
    (h1 : format ≠ "tar.gz") (h2 : format ≠ "zip") :
    compressHandler st cwd dirSegs targetSegs format = (Resp.badRequest, st) := by
  simp [compressHandler, h1, h2]

/-- Claim C8 witness: format "rar" is rejected with no effect. -/
theorem unsupported_format_rejected_no_effect_witness :
    compressHandler tinyFs [] [] ["data"] "rar" = (Resp.badRequest, tinyFs) :=
  unsupported_format_rejected_no_effect tinyFs [] [] ["data"] "rar"
    (by decide) (by decide)

/-- Claim C9 [confirmed].  For every file entry, untar first awaits the
    recursive mkdir of the resolved target's parent - after which every
    prefix of that parent path exists - and only then starts the content
    write: the write applies to the post-mkdir state, and in the awaited
    operation order the mkdir precedes the write's start. -/
theorem untar_creates_parents_before_write (st : FS) (t : List String)
    (nm : JPath) (c : List Nat) (m : Meta) (q : List String)
    (hq : q <+: (resolve t nm).dropLast) :
    FS.find (mkdirRec st (resolve t nm).dropLast) q ≠ none
    ∧ processEntry t st (Entry.file nm c m)
      = setMeta (FS.set (mkdirRec st (resolve t nm).dropLast) (resolve t nm)
          (Node.file c m)) (resolve t nm) m
    ∧ (entryAwaitedOps t (Entry.file nm c m)).take 2
      = [Op.mkdirP (resolve t nm).dropLast, Op.startWrite (resolve t nm)] :=
  ⟨mkdirRec_find st (resolve t nm).dropLast q hq, rfl, rfl⟩

/-- Claim C9 witness: a file entry named a/b/c/f.txt extracted into /out
    has the intermediate directory /out/a/b in place after the awaited
    mkdir step, before the write starts. -/
theorem untar_creates_parents_before_write_witness :
    FS.find (mkdirRec []
      (resolve ["out"] ⟨false, ["a", "b", "c", "f.txt"]⟩).dropLast)
      ["out", "a", "b"] ≠ none :=
  (untar_creates_parents_before_write [] ["out"]
    ⟨false, ["a", "b", "c", "f.txt"]⟩ [7] ⟨420, 0, 0, 0⟩ ["out", "a", "b"]
    ⟨["c"], rfl⟩).1

/-- Claim C10 [confirmed].  For format "zip" the decompress handler answers
    204 with the filesystem unchanged at the moment of response, for every
    state - unzip resolves as soon as the pipe is started and completion is
    never awaited - and for a missing archive the detached stream's error
    fires only after the successful return, propagated nowhere. -/
theorem unzip_returns_before_extraction :
    (∀ (st : FS) (cw d fl tg : List String),
      decompressHandler st cw d fl tg "zip" = (Resp.noContent none, st))
    ∧ (unzipRun tinyFs ["gone.zip"] ["out"]).returned = true
    ∧ (unzipRun tinyFs ["gone.zip"] ["out"]).eventual
      = Outcome.streamErrorUnpropagated :=
  ⟨fun _ _ _ _ _ => rfl, rfl, rfl⟩

end RestyFs
